import Mathlib

/-!
Shallow embedding of the `pyth-hermes-rs` client crate
(`src/crates/client/src/lib.rs` and `src/crates/client/src/types.rs`).

Modelling conventions:
  * Rust `f64` values are modelled as exact rationals (`ℚ`): the claims under
    study are about the integer/decimal arithmetic feeding the division, not
    about IEEE-754 rounding.
  * Rust `u64` arithmetic that can overflow is modelled with an explicit
    `% 2 ^ 64` (release-mode wrapping semantics).
  * `u64::from_str` (the `parse::<u64>()` call) is modelled by `parseU64`
    below: an optional leading `+`, then one or more ASCII digits, value
    strictly below `2 ^ 64`.
  * The stream supervisor's effects (connection attempts, backoff sleeps,
    sink invocations) are modelled as an explicit trace of `SupAction`s produced
    from a list of connection outcomes fed to the loop.
-/

/-- Wire type `RpcPrice` from `types.rs`: `price`/`conf` are decimal strings,
`expo` is an `i32` (modelled as `Int`), `publish_time` an `i64`. -/
structure RpcPrice where
  price : String
  conf : String
  expo : Int
  publish_time : Int
deriving DecidableEq, Repr

/-- Wire type `RpcPriceFeedMetadata` from `types.rs`: all-optional scalars. -/
structure RpcPriceFeedMetadata where
  emitter_chain : Option Int
  prev_publish_time : Option Int
  price_service_receive_time : Option Int
  slot : Option Int
deriving DecidableEq, Repr

/-- Wire type `RpcPriceFeed` from `types.rs`. -/
structure RpcPriceFeed where
  id : String
  price : RpcPrice
  ema_price : RpcPrice
  metadata : Option RpcPriceFeedMetadata
  vaa : Option String
deriving DecidableEq, Repr

/-- Wire type `BinaryUpdate` from `types.rs`. -/
structure BinaryUpdate where
  encoding : String
  data : List String
deriving DecidableEq, Repr

/-- Wire type `PriceUpdate` from `types.rs`: the update envelope, with an
optional `parsed` list. -/
structure PriceUpdate where
  binary : BinaryUpdate
  parsed : Option (List RpcPriceFeed)
deriving DecidableEq, Repr

/-- Wire type `ParsedPriceUpdate` from `types.rs`: the normalized update
delivered to the stream sink; `metadata` is non-optional here. -/
structure ParsedPriceUpdate where
  id : String
  price : RpcPrice
  ema_price : RpcPrice
  metadata : RpcPriceFeedMetadata
deriving DecidableEq, Repr

/-- Model of Rust `str::parse::<u64>()`: optional leading `+` sign, then a
non-empty run of ASCII digits, rejecting values that do not fit in 64 bits. -/
def parseU64 (s : String) : Option Nat :=
  let cs := s.data
  let digits := match cs with
    | '+' :: rest => rest
    | _ => cs
  if digits = [] then none
  else if digits.all Char.isDigit then
    let n := digits.foldl (fun acc c => acc * 10 + (c.toNat - 48)) 0
    if n < 2 ^ 64 then some n else none
  else none

/-- Model of `10_u64.pow(e)`: `u64` exponentiation with release-mode wrapping
semantics, i.e. the mathematical power reduced modulo `2 ^ 64`. -/
def u64_pow_wrapping (b e : Nat) : Nat :=
  b ^ e % 2 ^ 64

/-- Model of `RpcPrice::to_f64` from `types.rs`: parse `price` as a `u64`
(returning `none` on failure), then divide by `10_u64.pow(expo.unsigned_abs())`,
with the `f64` arithmetic modelled as exact rational arithmetic.
`i32::unsigned_abs` is modelled by `Int.natAbs`. -/
def RpcPrice.to_f64 (p : RpcPrice) : Option ℚ :=
  match parseU64 p.price with
  | none => none
  | some n => some ((n : ℚ) / (u64_pow_wrapping 10 p.expo.natAbs : ℚ))

/-- The wrapping `u64` power agrees with the mathematical power whenever the
mathematical power fits in 64 bits, in particular for base 10 and exponent at
most 19. -/
theorem u64_pow_wrapping_eq_pow_of_le (e : ℕ) (he : e ≤ 19) :
    u64_pow_wrapping 10 e = 10 ^ e := by
  have hlt : (10 : ℕ) ^ e < 2 ^ 64 := by
    calc (10 : ℕ) ^ e ≤ 10 ^ 19 := Nat.pow_le_pow_right (by norm_num) he
    _ < 2 ^ 64 := by norm_num
  simpa [u64_pow_wrapping] using Nat.mod_eq_of_lt hlt

/-- For an exponent of at least 64, `2 ^ 64` divides `10 ^ e`, so the wrapping
`u64` power of ten collapses to zero. -/
theorem u64_pow_wrapping_eq_zero (e : ℕ) (he : 64 ≤ e) :
    u64_pow_wrapping 10 e = 0 := by
  have hdvd : (2 : ℕ) ^ 64 ∣ 10 ^ e := by
    have h1 : (2 : ℕ) ^ 64 ∣ 2 ^ e := pow_dvd_pow 2 he
    have h2 : (2 : ℕ) ^ e ∣ 10 ^ e := by
      have : (10 : ℕ) = 2 * 5 := by norm_num
      rw [this, mul_pow]
      exact Dvd.intro _ rfl
    exact dvd_trans h1 h2
  obtain ⟨c, hc⟩ := hdvd
  unfold u64_pow_wrapping
  rw [hc]
  exact Nat.mul_mod_right _ _

/-- Unfolding lemma: when the price string parses, `to_f64` divides the parsed
value by the wrapping power of ten of the exponent's magnitude. -/
theorem to_f64_some (p : RpcPrice) (n : ℕ) (hp : parseU64 p.price = some n) :
    p.to_f64 = some ((n : ℚ) / (u64_pow_wrapping 10 p.expo.natAbs : ℚ)) := by
  simp [RpcPrice.to_f64, hp]

/-- C6, claim as stated is false: at price "1" and exponent -20 the computed
value is `1 / (10 ^ 20 % 2 ^ 64)`, not `1 / 10 ^ 20`, because the `u64` power
wraps. -/
theorem to_f64_claim_counterexample :
    RpcPrice.to_f64 ⟨"1", "0", -20, 0⟩ ≠ some ((1 : ℚ) / (10 : ℚ) ^ (20 : ℕ)) := by
  rw [to_f64_some ⟨"1", "0", -20, 0⟩ 1 (by decide)]
  have h2 : u64_pow_wrapping 10 ((-20 : ℤ).natAbs) = 7766279631452241920 := by decide
  rw [h2]
  intro h
  rw [Option.some_inj] at h
  norm_num at h

/-- C6 (amended): for every PricePoint whose price string parses as a `u64`
and whose exponent magnitude is at most 19, `to_f64` returns exactly
`parse_int(price) / 10 ^ |expo|`; moreover the exponent's sign never changes
the division direction (negating the exponent gives the same result). -/
theorem to_f64_decimal_conversion (p : RpcPrice) (n : ℕ)
    (hp : parseU64 p.price = some n) (he : p.expo.natAbs ≤ 19) :
    p.to_f64 = some ((n : ℚ) / (10 : ℚ) ^ p.expo.natAbs) ∧
      ({ p with expo := -p.expo } : RpcPrice).to_f64 = p.to_f64 := by
  constructor
  · rw [to_f64_some p n hp, u64_pow_wrapping_eq_pow_of_le _ he]
    push_cast
    ring_nf
  · simp [RpcPrice.to_f64, Int.natAbs_neg]

/-- C6 witness: the documented example, price "12971500000" with exponent -8,
evaluates to 12971500000 / 10 ^ 8 = 129.715. -/
theorem to_f64_decimal_conversion_witness :
    RpcPrice.to_f64 ⟨"12971500000", "6486733", -8, 1744523548⟩ =
        some ((12971500000 : ℚ) / (10 : ℚ) ^ ((-8 : ℤ).natAbs)) ∧
      RpcPrice.to_f64 ⟨"12971500000", "6486733", 8, 1744523548⟩ =
        RpcPrice.to_f64 ⟨"12971500000", "6486733", -8, 1744523548⟩ :=
  to_f64_decimal_conversion ⟨"12971500000", "6486733", -8, 1744523548⟩
    12971500000 (by decide) (by decide)

/-- C7: `to_f64` is a pure function of the record and returns `none` exactly
when the price string fails to parse as a non-negative 64-bit integer. -/
theorem to_f64_none_iff_parse_fails (p : RpcPrice) :
    p.to_f64 = none ↔ parseU64 p.price = none := by
  cases h : parseU64 p.price <;> simp [RpcPrice.to_f64, h]

/-- C8: the divisor is computed in 64-bit arithmetic. For exponent magnitude
at most 19 the power of ten fits in a `u64` and equals the mathematical power;
at magnitude 20 the power exceeds `2 ^ 64` and wraps, and `to_f64` no longer
returns `parse_int(price) / 10 ^ |expo|` (shown at exponent 20 and at the
magnitude of the minimum signed 32-bit exponent, `2 ^ 31`, where the wrapped
divisor is zero). -/
theorem to_f64_divisor_overflow :
    (∀ e : ℕ, e ≤ 19 → 10 ^ e < 2 ^ 64 ∧ u64_pow_wrapping 10 e = 10 ^ e) ∧
      (2 ^ 64 ≤ 10 ^ 20 ∧ u64_pow_wrapping 10 20 ≠ 10 ^ 20) ∧
      RpcPrice.to_f64 ⟨"1", "0", 20, 0⟩ ≠ some ((1 : ℚ) / (10 : ℚ) ^ (20 : ℕ)) ∧
      RpcPrice.to_f64 ⟨"1", "0", -2147483648, 0⟩ ≠
        some ((1 : ℚ) / (10 : ℚ) ^ (2147483648 : ℕ)) := by
  refine ⟨fun e he => ⟨?_, u64_pow_wrapping_eq_pow_of_le e he⟩, ⟨by norm_num, by decide⟩, ?_, ?_⟩
  · calc (10 : ℕ) ^ e ≤ 10 ^ 19 := Nat.pow_le_pow_right (by norm_num) he
    _ < 2 ^ 64 := by norm_num
  · rw [to_f64_some ⟨"1", "0", 20, 0⟩ 1 (by decide)]
    have h2 : u64_pow_wrapping 10 ((20 : ℤ).natAbs) = 7766279631452241920 := by decide
    rw [h2]
    intro h
    rw [Option.some_inj] at h
    norm_num at h
  · rw [to_f64_some ⟨"1", "0", -2147483648, 0⟩ 1 (by decide)]
    have hz : u64_pow_wrapping 10 ((-2147483648 : ℤ).natAbs) = 0 :=
      u64_pow_wrapping_eq_zero _ (by decide)
    rw [hz]
    intro h
    rw [Option.some_inj] at h
    have hne : ((10 : ℚ) ^ (2147483648 : ℕ)) ≠ 0 := pow_ne_zero _ (by norm_num)
    rw [Nat.cast_zero, div_zero] at h
    exact one_div_ne_zero hne h.symm

/-- C8 witness: at exponent magnitude 19 the power of ten fits in a `u64` and
the wrapping power agrees with the mathematical one. -/
theorem to_f64_divisor_overflow_witness :
    10 ^ 19 < 2 ^ 64 ∧ u64_pow_wrapping 10 19 = 10 ^ 19 :=
  to_f64_divisor_overflow.1 19 (by norm_num)

/-- One item yielded by the event source inside the reading loop of
`stream_price_updates`: `Ok(Event::Open)`, `Ok(Event::Message)` carrying the
message data, or the two error arms (`Err(StreamEnded)` and any other error),
both of which `break` out of the reading loop. -/
inductive SseItem where
  | openEvent : SseItem
  | message : String → SseItem
  | errStreamEnded : SseItem
  | errOther : SseItem
deriving DecidableEq, Repr

/-- Outcome of one iteration of the outer reconnect loop: either
`EventSource::new` fails, or a connection is obtained that yields a sequence
of items. -/
inductive ConnOutcome where
  | openFail : ConnOutcome
  | opened : List SseItem → ConnOutcome
deriving DecidableEq, Repr

/-- Observable effect of the supervisor task: issuing the streaming request
with a feed id set, sleeping for a backoff (in seconds), or invoking the
caller-supplied sink with a normalized update. -/
inductive SupAction where
  | connect : List String → SupAction
  | sleep : Nat → SupAction
  | sink : ParsedPriceUpdate → SupAction
deriving DecidableEq, Repr

/-- Body of the `Ok(Event::Message(msg))` arm of `stream_price_updates`:
decode the message data as a `PriceUpdate`; on success, for each entry of
`parsed` (when present) that carries metadata, build a `ParsedPriceUpdate`
and invoke the sink. The JSON decoder (`serde_json::from_str`) is abstracted
as a `decode` parameter; the returned list is the sequence of sink
invocations for this message, in order. -/
def handleMessage (decode : String → Option PriceUpdate) (data : String) :
    List ParsedPriceUpdate :=
  match decode data with
  | none => []
  | some update =>
    match update.parsed with
    | none => []
    | some parsed =>
      parsed.filterMap fun item =>
        match item.metadata with
        | some metadata =>
          some ⟨item.id, item.price, item.ema_price, metadata⟩
        | none => none

/-- Inner `while let` loop of `stream_price_updates`: process items one at a
time; `Event::Open` does nothing, a message produces its sink invocations,
and either error arm breaks out of the loop (ending the list of actions for
this connection). -/
def readEvents (decode : String → Option PriceUpdate) : List SseItem → List SupAction
  | [] => []
  | SseItem.openEvent :: rest => readEvents decode rest
  | SseItem.message data :: rest =>
    (handleMessage decode data).map SupAction.sink ++ readEvents decode rest
  | SseItem.errStreamEnded :: _ => []
  | SseItem.errOther :: _ => []

/-- One iteration of the outer loop of `stream_price_updates`: build the
streaming request with the captured feed ids and attempt to open the event
source; on failure sleep 2 seconds and continue, on success run the reading
loop. -/
def runConn (decode : String → Option PriceUpdate) (ids : List String) :
    ConnOutcome → List SupAction
  | ConnOutcome.openFail => [SupAction.connect ids, SupAction.sleep 2]
  | ConnOutcome.opened items => SupAction.connect ids :: readEvents decode items

/-- The outer `loop` of `stream_price_updates`, unrolled over a finite list
of connection outcomes: each outcome is handled by `runConn` and the loop
continues with the next one (the Rust loop has no exit arm; only external
cancellation of the task stops it). -/
def runSupervisor (decode : String → Option PriceUpdate) (ids : List String) :
    List ConnOutcome → List SupAction
  | [] => []
  | c :: cs => runConn decode ids c ++ runSupervisor decode ids cs

/-- Error taxonomy of the transport layer: `reqwest` network errors, the
error produced by `error_for_status`, and JSON body decode errors. -/
inductive HermesError where
  | transport : HermesError
  | status : Nat → HermesError
  | decode : HermesError
deriving DecidableEq, Repr

/-- Model of the task handle returned by `stream_price_updates`: the spawned
loop's captured state (cloned base url and feed id list). -/
structure StreamTask where
  base_url : String
  ids : List String
deriving DecidableEq, Repr

/-- Model of `HermesClient::stream_price_updates`: clone the base url and
client, spawn the supervisor loop, and return the join handle. The Rust
function body has no failure path before `Ok(handler)`; every fallible step
happens inside the spawned task. -/
def stream_price_updates (base_url : String) (ids : List String) :
    Except HermesError StreamTask :=
  Except.ok ⟨base_url, ids⟩

/-- The number of normalized updates extracted from a parsed list is the
number of its metadata-bearing entries. -/
theorem length_filterMap_metadata (l : List RpcPriceFeed) :
    (l.filterMap fun item => item.metadata.map
        fun m => ParsedPriceUpdate.mk item.id item.price item.ema_price m).length =
      l.countP fun item => item.metadata.isSome := by
  induction l with
  | nil => rfl
  | cons hd tl ih =>
    cases h : hd.metadata <;>
      simp [List.filterMap_cons, h, List.countP_cons, ih]

/-- C1: for a decoded stream message whose envelope carries a parsed list,
the sink invocations are exactly the metadata-bearing entries, normalized, in
original list order, and their number is the count of metadata-bearing
entries; entries with null metadata produce no invocation. -/
theorem stream_sink_per_metadata_entry (decode : String → Option PriceUpdate)
    (data : String) (u : PriceUpdate) (l : List RpcPriceFeed)
    (hdec : decode data = some u) (hp : u.parsed = some l) :
    handleMessage decode data =
        (l.filterMap fun item => item.metadata.map
          fun m => ParsedPriceUpdate.mk item.id item.price item.ema_price m) ∧
      (handleMessage decode data).length =
        l.countP fun item => item.metadata.isSome := by
  have h1 : handleMessage decode data =
      l.filterMap fun item => item.metadata.map
        fun m => ParsedPriceUpdate.mk item.id item.price item.ema_price m := by
    simp only [handleMessage, hdec, hp]
    congr 1
    funext item
    cases item.metadata <;> rfl
  exact ⟨h1, by rw [h1]; exact length_filterMap_metadata l⟩

/-- Sample metadata record used to instantiate the stream-dispatch claim. -/
def sampleMeta : RpcPriceFeedMetadata :=
  ⟨some 26, some 1744523540, some 1744523549, some 333⟩

/-- Sample price record used to instantiate the stream-dispatch claim. -/
def samplePrice : RpcPrice :=
  ⟨"12971500000", "6486733", -8, 1744523548⟩

/-- Sample envelope with one metadata-bearing entry and one entry without
metadata. -/
def sampleEnvelope : PriceUpdate :=
  ⟨⟨"hex", []⟩,
    some [⟨"feed-a", samplePrice, samplePrice, some sampleMeta, none⟩,
          ⟨"feed-b", samplePrice, samplePrice, none, none⟩]⟩

/-- C1 witness: on a concrete two-entry message, exactly the metadata-bearing
entry is delivered to the sink. -/
theorem stream_sink_per_metadata_entry_witness :
    handleMessage (fun _ => some sampleEnvelope) "payload" =
        [⟨"feed-a", samplePrice, samplePrice, sampleMeta⟩] ∧
      (handleMessage (fun _ => some sampleEnvelope) "payload").length = 1 := by
  have h := stream_sink_per_metadata_entry (fun _ => some sampleEnvelope)
    "payload" sampleEnvelope
    [⟨"feed-a", samplePrice, samplePrice, some sampleMeta, none⟩,
     ⟨"feed-b", samplePrice, samplePrice, none, none⟩] rfl rfl
  exact ⟨by rw [h.1]; rfl, by rw [h.2]; rfl⟩

/-- C2: a message whose data fails to decode produces zero sink invocations
and does not break the reading loop: the remaining items on the same
connection, including any later valid message, are still processed. -/
theorem stream_malformed_message_ignored (decode : String → Option PriceUpdate)
    (bad : String) (hbad : decode bad = none) (rest : List SseItem) :
    handleMessage decode bad = [] ∧
      readEvents decode (SseItem.message bad :: rest) = readEvents decode rest ∧
      ∀ goodData rest2,
        readEvents decode (SseItem.message bad :: SseItem.message goodData :: rest2) =
          (handleMessage decode goodData).map SupAction.sink ++
            readEvents decode rest2 := by
  have h1 : handleMessage decode bad = [] := by
    simp [handleMessage, hbad]
  refine ⟨h1, ?_, fun goodData rest2 => ?_⟩ <;> simp [readEvents, h1]

/-- C2 witness: a concrete undecodable message is dropped and the loop keeps
going. -/
theorem stream_malformed_message_ignored_witness :
    handleMessage (fun _ => none) "not json" = [] ∧
      readEvents (fun _ => none) (SseItem.message "not json" :: [SseItem.openEvent]) =
        readEvents (fun _ => none) [SseItem.openEvent] ∧
      readEvents (fun _ => none)
          (SseItem.message "not json" :: SseItem.message "x" :: []) =
        (handleMessage (fun _ => none) "x").map SupAction.sink ++
          readEvents (fun _ => none) [] := by
  have h := stream_malformed_message_ignored (fun _ => none) "not json" rfl
    [SseItem.openEvent]
  exact ⟨h.1, h.2.1, h.2.2 "x" []⟩

/-- The reading loop emits only sink invocations, never a connection
attempt. -/
theorem readEvents_connect_not_mem (decode : String → Option PriceUpdate)
    (items : List SseItem) :
    ∀ a ∈ readEvents decode items, ∀ j, a ≠ SupAction.connect j := by
  induction items with
  | nil => simp [readEvents]
  | cons hd tl ih =>
    cases hd with
    | openEvent => simpa [readEvents] using ih
    | message data =>
      intro a ha j
      rw [readEvents, List.mem_append] at ha
      rcases ha with h | h
      · rcases List.mem_map.mp h with ⟨u, _, rfl⟩
        simp
      · exact ih a h j
    | errStreamEnded => simp [readEvents]
    | errOther => simp [readEvents]

/-- C3: each loop iteration (after a clean stream end or any other stream
fault, and equally after an open failure) re-enters the connecting state and
rebuilds the streaming request; every connection attempt in the task's whole
trace carries the original feed id set unchanged. -/
theorem stream_reconnect_same_ids (decode : String → Option PriceUpdate)
    (ids : List String) (c : ConnOutcome) (cs : List ConnOutcome) :
    runSupervisor decode ids (c :: cs) =
        runConn decode ids c ++ runSupervisor decode ids cs ∧
      (runConn decode ids c).head? = some (SupAction.connect ids) ∧
      ∀ conns a, a ∈ runSupervisor decode ids conns →
        ∀ j, a = SupAction.connect j → j = ids := by
  refine ⟨rfl, by cases c <;> rfl, fun conns => ?_⟩
  induction conns with
  | nil => simp [runSupervisor]
  | cons c' cs' ih =>
    intro a ha j hj
    rw [runSupervisor, List.mem_append] at ha
    rcases ha with h | h
    · cases c' with
      | openFail =>
        rcases h with _ | ⟨_, h⟩
        · injection hj with h'
          exact h'.symm
        · rcases h with _ | ⟨_, h⟩
          · exact absurd hj (by simp)
          · cases h
      | opened items =>
        rcases h with _ | ⟨_, h⟩
        · injection hj with h'
          exact h'.symm
        · exact absurd hj (readEvents_connect_not_mem decode items a h j)
    · exact ih a h j hj

/-- C3 witness: a concrete two-iteration run (an open failure, then a faulted
connection) whose trace is explicitly the two connection attempts with the
original id set. -/
theorem stream_reconnect_same_ids_witness :
    runSupervisor (fun _ => none) ["f1", "f2"]
          [ConnOutcome.openFail, ConnOutcome.opened [SseItem.errOther]] =
        runConn (fun _ => none) ["f1", "f2"] ConnOutcome.openFail ++
          runSupervisor (fun _ => none) ["f1", "f2"]
            [ConnOutcome.opened [SseItem.errOther]] ∧
      (runConn (fun _ => none) ["f1", "f2"] ConnOutcome.openFail).head? =
        some (SupAction.connect ["f1", "f2"]) ∧
      (["f1", "f2"] : List String) = ["f1", "f2"] := by
  have h := stream_reconnect_same_ids (fun _ => none) ["f1", "f2"]
    ConnOutcome.openFail [ConnOutcome.opened [SseItem.errOther]]
  refine ⟨h.1, h.2.1, ?_⟩
  exact h.2.2 [ConnOutcome.openFail] (SupAction.connect ["f1", "f2"])
    (by decide) ["f1", "f2"] rfl

/-- C4: an open failure produces exactly a 2-second backoff sleep and a fresh
connection attempt, whatever comes next; for every number n of consecutive
open failures the supervisor performs all n attempts and backoffs — the retry
loop never gives up after any bounded number of failures. -/
theorem stream_backoff_unbounded_retry (decode : String → Option PriceUpdate)
    (ids : List String) :
    (∀ cs, runSupervisor decode ids (ConnOutcome.openFail :: cs) =
        SupAction.connect ids :: SupAction.sleep 2 ::
          runSupervisor decode ids cs) ∧
      ∀ n, runSupervisor decode ids (List.replicate n ConnOutcome.openFail) =
        (List.replicate n [SupAction.connect ids, SupAction.sleep 2]).flatten := by
  refine ⟨fun cs => rfl, fun n => ?_⟩
  induction n with
  | zero => rfl
  | succ k ih => simp [List.replicate_succ, runSupervisor, runConn, ih]

/-- C5: starting the stream always returns the task handle (there is no
synchronous failure path at all, so a synchronous failure can only come from
request construction, vacuously), and whatever outcomes the spawned loop
meets, it keeps processing the next one — no post-start failure escapes the
loop. -/
theorem stream_start_returns_handle (base_url : String) (ids : List String) :
    stream_price_updates base_url ids = Except.ok ⟨base_url, ids⟩ ∧
      ∀ (decode : String → Option PriceUpdate) (conns : List ConnOutcome)
        (c : ConnOutcome),
        runSupervisor decode ids (conns ++ [c]) =
          runSupervisor decode ids conns ++ runConn decode ids c := by
  refine ⟨rfl, fun decode conns c => ?_⟩
  induction conns with
  | nil => simp [runSupervisor]
  | cons c' cs' ih => simp [runSupervisor, ih]

/-- Wire type `PriceFeedMetadata` from `types.rs`; the `HashMap` of attributes
is modelled as an association list. -/
structure PriceFeedMetadata where
  id : String
  attributes : List (String × String)
deriving DecidableEq, Repr

/-- Wire type `ParsedPriceFeedTwap` from `types.rs`. -/
structure ParsedPriceFeedTwap where
  id : String
  start_timestamp : Int
  end_timestamp : Int
  twap : RpcPrice
  down_slots_ratio : String
deriving DecidableEq, Repr

/-- Wire type `TwapsResponse` from `types.rs`. -/
structure TwapsResponse where
  binary : BinaryUpdate
  parsed : Option (List ParsedPriceFeedTwap)
deriving DecidableEq, Repr

/-- Wire type `ParsedPublisherStakeCap` from `types.rs`. -/
structure ParsedPublisherStakeCap where
  publisher : String
  cap : Int
deriving DecidableEq, Repr

/-- Wire type `ParsedPublisherStakeCapsUpdate` from `types.rs`. -/
structure ParsedPublisherStakeCapsUpdate where
  publisher_stake_caps : List ParsedPublisherStakeCap
deriving DecidableEq, Repr

/-- Wire type `LatestPublisherStakeCapsUpdateDataResponse` from `types.rs`. -/
structure LatestPublisherStakeCapsUpdateDataResponse where
  binary : BinaryUpdate
  parsed : Option (List ParsedPublisherStakeCapsUpdate)
deriving DecidableEq, Repr

/-- What the single HTTP attempt of a request/response method meets: either
the network call itself fails, or a response arrives with a status code and a
body whose JSON decode result is modelled as an `Option`. -/
inductive FetchOutcome (α : Type) where
  | transportErr : FetchOutcome α
  | response : Nat → Option α → FetchOutcome α
deriving DecidableEq, Repr

/-- Model of `reqwest::Response::error_for_status`: a client error (4xx) or a
server error (5xx) yields a status error, any other code passes through. -/
def error_for_status (code : Nat) : Option HermesError :=
  if 400 ≤ code ∧ code ≤ 599 then some (HermesError.status code) else none

/-- The shared `send().await?.error_for_status()?.json::<T>().await` pipeline
of every request/response method: propagate the transport error, then the
status error, then the decode error, otherwise produce the decoded body.
Exactly one attempt is made: the pipeline consumes a single `FetchOutcome`
and contains no retry. -/
def runCall {α : Type} : FetchOutcome α → Except HermesError α
  | FetchOutcome.transportErr => Except.error HermesError.transport
  | FetchOutcome.response code body =>
    match error_for_status code with
    | some e => Except.error e
    | none =>
      match body with
      | none => Except.error HermesError.decode
      | some v => Except.ok v

/-- Model of `HermesClient::get_latest_price_feeds`: run the pipeline for a
`PriceUpdate` body and return `parsed.unwrap_or_default()`. -/
def get_latest_price_feeds (r : FetchOutcome PriceUpdate) :
    Except HermesError (List RpcPriceFeed) :=
  match runCall r with
  | Except.error e => Except.error e
  | Except.ok feeds => Except.ok (feeds.parsed.getD [])

/-- Model of `HermesClient::get_price_feeds_metadata`: the pipeline for a
`Vec<PriceFeedMetadata>` body; the two optional filters only affect the query
string, not the response handling. -/
def get_price_feeds_metadata (_query _asset_type : Option String)
    (r : FetchOutcome (List PriceFeedMetadata)) :
    Except HermesError (List PriceFeedMetadata) :=
  runCall r

/-- Model of `HermesClient::get_price_updates_by_time`: the pipeline for a
`PriceUpdate` body; `publish_time` only affects the request path. -/
def get_price_updates_by_time (_publish_time : Int)
    (r : FetchOutcome PriceUpdate) : Except HermesError PriceUpdate :=
  runCall r

/-- Model of `HermesClient::get_latest_twaps`: the pipeline for a
`TwapsResponse` body; `window_seconds` only affects the request path. -/
def get_latest_twaps (_window_seconds : Nat) (r : FetchOutcome TwapsResponse) :
    Except HermesError TwapsResponse :=
  runCall r

/-- Model of `HermesClient::get_latest_publisher_stake_caps`: the pipeline
for a `LatestPublisherStakeCapsUpdateDataResponse` body. -/
def get_latest_publisher_stake_caps
    (r : FetchOutcome LatestPublisherStakeCapsUpdateDataResponse) :
    Except HermesError LatestPublisherStakeCapsUpdateDataResponse :=
  runCall r

/-- C9: when the pipeline succeeds, an absent `parsed` list yields the empty
list as a success (never an error), and a present `parsed` list is returned
exactly. -/
theorem latest_feeds_parsed_defaulting (r : FetchOutcome PriceUpdate)
    (u : PriceUpdate) (h : runCall r = Except.ok u) :
    (u.parsed = none → get_latest_price_feeds r = Except.ok []) ∧
      ∀ l, u.parsed = some l → get_latest_price_feeds r = Except.ok l := by
  refine ⟨fun hn => ?_, fun l hl => ?_⟩
  · simp [get_latest_price_feeds, h, hn]
  · simp [get_latest_price_feeds, h, hl]

/-- C9 witness: a 200 response whose envelope has no `parsed` list returns
the empty list as a success. -/
theorem latest_feeds_parsed_defaulting_witness :
    get_latest_price_feeds (FetchOutcome.response 200 (some ⟨⟨"hex", []⟩, none⟩)) =
      Except.ok [] :=
  (latest_feeds_parsed_defaulting
    (FetchOutcome.response 200 (some ⟨⟨"hex", []⟩, none⟩)) ⟨⟨"hex", []⟩, none⟩
    rfl).1 rfl

/-- C10: every request/response method surfaces a status error on any 4xx or
5xx response, whatever the body holds — never an empty success result. Each
method consumes exactly one `FetchOutcome`, so no retry happens at this
layer. -/
theorem status_error_surfaced (code : Nat) (h4 : 400 ≤ code)
    (h5 : code ≤ 599) :
    (∀ b, get_latest_price_feeds (FetchOutcome.response code b) =
        Except.error (HermesError.status code)) ∧
      (∀ q a b, get_price_feeds_metadata q a (FetchOutcome.response code b) =
        Except.error (HermesError.status code)) ∧
      (∀ t b, get_price_updates_by_time t (FetchOutcome.response code b) =
        Except.error (HermesError.status code)) ∧
      (∀ w b, get_latest_twaps w (FetchOutcome.response code b) =
        Except.error (HermesError.status code)) ∧
      ∀ b, get_latest_publisher_stake_caps (FetchOutcome.response code b) =
        Except.error (HermesError.status code) := by
  have hs : ∀ {α : Type} (b : Option α),
      runCall (FetchOutcome.response code b) =
        Except.error (HermesError.status code) := by
    intro α b
    simp [runCall, error_for_status, h4, h5]
  exact ⟨fun b => by simp [get_latest_price_feeds, hs],
    fun q a b => hs b, fun t b => hs b, fun w b => hs b, fun b => hs b⟩

/-- C10 witness: an HTTP 500 response with an undecodable body surfaces the
status error from every method. -/
theorem status_error_surfaced_witness :
    get_latest_price_feeds (FetchOutcome.response 500 none) =
        Except.error (HermesError.status 500) ∧
      get_price_feeds_metadata (some "bitcoin") none
          (FetchOutcome.response 500 none) =
        Except.error (HermesError.status 500) ∧
      get_price_updates_by_time 1717632000 (FetchOutcome.response 500 none) =
        Except.error (HermesError.status 500) ∧
      get_latest_twaps 300 (FetchOutcome.response 500 none) =
        Except.error (HermesError.status 500) ∧
      get_latest_publisher_stake_caps (FetchOutcome.response 500 none) =
        Except.error (HermesError.status 500) := by
  have h := status_error_surfaced 500 (by norm_num) (by norm_num)
  exact ⟨h.1 none, h.2.1 (some "bitcoin") none none, h.2.2.1 1717632000 none,
    h.2.2.2.1 300 none, h.2.2.2.2 none⟩
